import Mathlib

/-!
Shallow embedding of `enthought/chaco2/tools/simple_zoom.py` (class
`SimpleZoom`): the zoom-limit policy, the coordinate-mapping helpers,
the gesture state machine handlers, the history-stack operations of the
`ToolHistoryMixin` collaborator (modelled from the spec, the mixin's
source is not part of this tree), the apply operation `_do_zoom`, and
the wheel-zoom handler `normal_mouse_wheel`.

Numeric model: data- and screen-space scalars are rationals.  The values
fed to `_zoom_limit_reached` are IEEE-style extended values (`EF`): a
finite rational, positive or negative infinity, or NaN, with the
subtraction / division / comparison behaviour of Python floats that the
function relies on.  `numpy.allclose(x, 0.0)` with the default
tolerances (rtol 1e-5, atol 1e-8) reduces to `|x| <= 1e-8` for finite
`x` and `False` for infinite or NaN `x`.  The zoom-factor limits are
`Option` rationals: `none` models the `None` that the `allow_none=True`
trait permits, and comparisons against it follow Python 2's rule that
`None` is smaller than every number (so `x > None` is `True` for every
float `x`).
-/

/-- Absolute value on the rationals, written out so that it evaluates by
kernel reduction. -/
def qabs (q : ℚ) : ℚ := if q < 0 then -q else q

/-- Extended value modelling a Python float as used by `_zoom_limit_reached`:
finite rational, `+inf`, `-inf`, or NaN. -/
inductive EF where
  | nan : EF
  | pinf : EF
  | ninf : EF
  | fin : ℚ → EF
deriving DecidableEq, Repr

namespace EF

/-- IEEE-style subtraction on extended values (`a - b`). -/
def sub : EF → EF → EF
  | fin a, fin b => fin (a - b)
  | fin _, pinf => ninf
  | fin _, ninf => pinf
  | pinf, fin _ => pinf
  | pinf, ninf => pinf
  | ninf, fin _ => ninf
  | ninf, pinf => ninf
  | _, _ => nan

/-- IEEE-style division on extended values (`a / b`).  Only the cases with a
finite nonzero denominator are reachable in `_zoom_limit_reached` (the
`allclose` guards rule the rest out), but the operation is total. -/
def div : EF → EF → EF
  | fin a, fin b =>
      if b = 0 then (if 0 < a then pinf else if a < 0 then ninf else nan)
      else fin (a / b)
  | pinf, fin b => if b < 0 then ninf else pinf
  | ninf, fin b => if b < 0 then pinf else ninf
  | fin _, pinf => fin 0
  | fin _, ninf => fin 0
  | _, _ => nan

/-- Test `x == inf` with IEEE equality: true exactly for `+inf`
(NaN compares unequal to everything). -/
def eqPinf : EF → Bool
  | pinf => true
  | _ => false

/-- Model of `numpy.allclose(x, 0.0)` at the default tolerances:
`|x - 0| <= atol + rtol * |0| = 1e-8` for finite `x`; `False` for
infinite or NaN `x`. -/
def allcloseZero : EF → Bool
  | fin a => qabs a ≤ 1 / 100000000
  | _ => false

/-- IEEE comparison `x > q` against a finite float `q`:
NaN compares false, `+inf` true, `-inf` false. -/
def gtF : EF → ℚ → Bool
  | fin a, q => decide (q < a)
  | pinf, _ => true
  | ninf, _ => false
  | nan, _ => false

end EF

/-- Python 2 comparison `x > limit` where `limit` may be `None`
(`allow_none=True` on the factor traits): in CPython 2, `None` is
smaller than every number, so `x > None` is `True` for every float `x`,
NaN and `-inf` included. -/
def pyGtOptF (x : EF) : Option ℚ → Bool
  | none => true
  | some q => x.gtF q

/-- Zoom-factor limit configuration of the tool: `max_zoom_in_factor` and
`max_zoom_out_factor`, each a float or `None`. -/
structure ZoomLimits where
  max_zoom_in_factor : Option ℚ
  max_zoom_out_factor : Option ℚ
deriving DecidableEq, Repr

/-- Default limit configuration: both factors are `Float(1e5)`. -/
def defaultLimits : ZoomLimits :=
  { max_zoom_in_factor := some 100000, max_zoom_out_factor := some 100000 }

/-- Embedding of `SimpleZoom._zoom_limit_reached(orig_low, orig_high,
new_low, new_high)`: computes `orig_bounds = orig_high - orig_low`,
returns `False` when `orig_bounds == inf`, then `True` when
`allclose(orig_bounds, 0)` or `allclose(new_bounds, 0)`, then `True`
when `new_bounds / orig_bounds > max_zoom_out_factor` or
`orig_bounds / new_bounds > max_zoom_in_factor`, else `False`. -/
def zoom_limit_reached (self : ZoomLimits)
    (orig_low orig_high new_low new_high : EF) : Bool :=
  let orig_bounds := orig_high.sub orig_low
  if orig_bounds.eqPinf then false
  else
    let new_bounds := new_high.sub new_low
    if orig_bounds.allcloseZero then true
    else if new_bounds.allcloseZero then true
    else if pyGtOptF (new_bounds.div orig_bounds) self.max_zoom_out_factor
         || pyGtOptF (orig_bounds.div new_bounds) self.max_zoom_in_factor then
      true
    else false

/-- Selection mode of the tool: `tool_mode = Enum("box", "range")`. -/
inductive ToolMode where
  | box : ToolMode
  | range : ToolMode
deriving DecidableEq, Repr

/-- Axis selector, `axis = Enum("index", "value")`; meaningful in range mode. -/
inductive AxisSel where
  | index : AxisSel
  | value : AxisSel
deriving DecidableEq, Repr

/-- Orientation of the host component, `"h"` or `"v"`. -/
inductive Orient where
  | h : Orient
  | v : Orient
deriving DecidableEq, Repr

/-- Mouse button configured to start the drag, `drag_button = Enum("left", "right")`. -/
inductive Button where
  | left : Button
  | right : Button
deriving DecidableEq, Repr

/-- Gesture state, `event_state = Enum("normal", "selecting")`. -/
inductive EventState where
  | normal : EventState
  | selecting : EventState
deriving DecidableEq, Repr

/-- Occupant of the component's `active_tool` slot as seen from this tool:
empty (`None`), this tool (`self`), or some other tool. -/
inductive ActiveTool where
  | free : ActiveTool
  | this : ActiveTool
  | other : ActiveTool
deriving DecidableEq, Repr

/-- Value of a data range's `low_setting` / `high_setting`: either the
symbolic `"auto"` or a number.  The mapper range keeps these setting
values separately from the numeric `low` / `high` bounds. -/
inductive Setting where
  | auto : Setting
  | num : ℚ → Setting
deriving DecidableEq, Repr

/-- One component of a history entry: a scalar bound (range mode) or a
pair of bounds, one per axis (box mode).  The tuple shape is observable
at run time: `normal_mouse_wheel` branches on `type(orig_high) in
(tuple, list)`. -/
inductive ZVal where
  | s : ℚ → ZVal
  | p : ℚ → ℚ → ZVal
deriving DecidableEq, Repr

/-- One history entry `(low, high)` as stored by `_append_state`. -/
abbrev ZoomEntry := ZVal × ZVal

/-- Data range of one mapper: numeric visible bounds `low` / `high` plus
the separately persisted `low_setting` / `high_setting`. -/
structure DataRange where
  low : ℚ
  high : ℚ
  low_setting : Setting
  high_setting : Setting

/-- One axis mapper of the host component: a screen-to-data mapping
function and the owned data range. -/
structure Mapper where
  map_data : ℚ → ℚ
  range : DataRange

/-- Host component (plot surface) as the tool sees it: screen box
corners, orientation, the two axis mappers, the `active_tool` slot, and
a redraw-request counter standing for `request_redraw()`. -/
structure Component where
  x : ℚ
  y : ℚ
  x2 : ℚ
  y2 : ℚ
  orientation : Orient
  x_mapper : Mapper
  y_mapper : Mapper
  active_tool : ActiveTool
  redraws : ℕ

/-- State of a `SimpleZoom` tool instance: configuration traits, private
traits, the host component, and the history stack of the
`ToolHistoryMixin` (sequence of entries plus current index). -/
structure SimpleZoom where
  tool_mode : ToolMode
  axis : AxisSel
  always_on : Bool
  drag_button : Button
  enable_wheel : Bool
  wheel_zoom_step : ℚ
  disable_on_complete : Bool
  minimum_screen_delta : ℤ
  limits : ZoomLimits
  event_state : EventState
  enabled : Bool
  orig_low_setting : Setting ⊕ (Setting × Setting)
  orig_high_setting : Setting ⊕ (Setting × Setting)
  screen_start : Option (ℚ × ℚ)
  screen_end : Option (ℚ × ℚ)
  component : Component
  history : List ZoomEntry
  history_index : ℕ

/-- Input event as delivered to the handlers: screen position, wheel
delta, and the `handled` flag the tool may set. -/
structure Event where
  x : ℚ
  y : ℚ
  mouse_wheel : ℤ
  handled : Bool

namespace SimpleZoom

/-- Embedding of `_determine_axis`: index of the axis of interest in an
`(x, y)` tuple, from the `axis` trait and the component orientation. -/
def determine_axis (s : SimpleZoom) : ℕ :=
  match s.axis, s.component.orientation with
  | AxisSel.index, Orient.h => 0
  | AxisSel.index, Orient.v => 1
  | AxisSel.value, Orient.h => 1
  | AxisSel.value, Orient.v => 0

/-- Embedding of `_get_mapper`: `getattr(component, axis + "_mapper")`
returns the component's index or value mapper; on the host component the
index mapper is the x mapper when the orientation is horizontal and the
y mapper otherwise (and symmetrically for the value mapper), which is
exactly the axis selected by `_determine_axis`. -/
def get_mapper (s : SimpleZoom) : Mapper :=
  if s.determine_axis = 0 then s.component.x_mapper else s.component.y_mapper

/-- Projection of an `(x, y)` pair by tuple index, for `pt[axis_ndx]`. -/
def proj (pt : ℚ × ℚ) (ndx : ℕ) : ℚ :=
  if ndx = 0 then pt.1 else pt.2

/-- Functional update of the data range of the axis mapper numbered
`ndx` (0 = x, 1 = y). -/
def setRange (s : SimpleZoom) (ndx : ℕ) (f : DataRange → DataRange) : SimpleZoom :=
  if ndx = 0 then
    { s with component := { s.component with
        x_mapper := { s.component.x_mapper with range := f s.component.x_mapper.range } } }
  else
    { s with component := { s.component with
        y_mapper := { s.component.y_mapper with range := f s.component.y_mapper.range } } }

/-- Embedding of `component.request_redraw()`. -/
def request_redraw (s : SimpleZoom) : SimpleZoom :=
  { s with component := { s.component with redraws := s.component.redraws + 1 } }

/-- Embedding of `_map_coordinate_box(start, end)`: maps both coordinates
of the two screen points through the respective axis mappers and swaps
each axis's pair so that low ≤ high.  Returns `(low, high)` as two
`(x, y)` pairs. -/
def map_coordinate_box (s : SimpleZoom) (start stop : ℚ × ℚ) :
    (ℚ × ℚ) × (ℚ × ℚ) :=
  let xl := s.component.x_mapper.map_data start.1
  let xh := s.component.x_mapper.map_data stop.1
  let yl := s.component.y_mapper.map_data start.2
  let yh := s.component.y_mapper.map_data stop.2
  let xpair := if xh < xl then (xh, xl) else (xl, xh)
  let ypair := if yh < yl then (yh, yl) else (yl, yh)
  ((xpair.1, ypair.1), (xpair.2, ypair.2))

/-- Modelled from the spec: `ToolHistoryMixin._append_state` (History
Stack push) — truncate any entries after the current index, append the
new entry, and advance the index to the new last position.  The
apply-callback step named in the spec is performed explicitly by the
caller in this code (`_end_select` calls `_do_zoom` itself), so the push
primitive only manipulates the stack. -/
def append_state (s : SimpleZoom) (entry : ZoomEntry) : SimpleZoom :=
  { s with history := s.history.take (s.history_index + 1) ++ [entry],
           history_index := s.history_index + 1 }

/-- Modelled from the spec: `ToolHistoryMixin._pop_state` — remove the
current (last) entry and decrement the index, without re-invoking the
apply-callback. -/
def pop_state (s : SimpleZoom) : SimpleZoom :=
  { s with history := s.history.dropLast,
           history_index := s.history_index - 1 }

/-- Modelled from the spec: `ToolHistoryMixin._reset_state` — clear all
entries, keep the given entry as the single element, index 0. -/
def reset_state (s : SimpleZoom) (entry : ZoomEntry) : SimpleZoom :=
  { s with history := [entry], history_index := 0 }

/-- Modelled from the spec: `ToolHistoryMixin._current_state` — the
entry at the current index (`None`-free: the stack is non-empty with the
index in range whenever the tool is well-formed; out-of-range access is
an `IndexError`, returned here as `none`). -/
def current_state (s : SimpleZoom) : Option ZoomEntry :=
  s.history.get? s.history_index

/-- Embedding of `_reset_state_to_current`: reset the history to a
single entry holding the current numeric bounds (scalar in range mode,
per-axis pairs in box mode). -/
def reset_state_to_current (s : SimpleZoom) : SimpleZoom :=
  match s.tool_mode with
  | ToolMode.range =>
      let m := s.get_mapper
      s.reset_state (ZVal.s m.range.low, ZVal.s m.range.high)
  | ToolMode.box =>
      let xr := s.component.x_mapper.range
      let yr := s.component.y_mapper.range
      s.reset_state (ZVal.p xr.low yr.low, ZVal.p xr.high yr.high)

end SimpleZoom

namespace SimpleZoom

/-- Embedding of `reset()`: back to the normal state with no start or
end position. -/
def reset (s : SimpleZoom) : SimpleZoom :=
  { s with event_state := EventState.normal,
           screen_start := none, screen_end := none }

/-- Embedding of `disable(event)`: `reset()`, clear the enabled flag,
and release the `active_tool` slot when this tool holds it (the cursor
change on the window is outside the model). -/
def disable (s : SimpleZoom) : SimpleZoom :=
  let s := s.reset
  let s := { s with enabled := false }
  if s.component.active_tool = ActiveTool.this then
    { s with component := { s.component with active_tool := ActiveTool.free } }
  else s

/-- Embedding of `enable(event)`: claim the `active_tool` slot and set
the enabled flag. -/
def enable (s : SimpleZoom) : SimpleZoom :=
  let s :=
    if s.component.active_tool ≠ ActiveTool.this then
      { s with component := { s.component with active_tool := ActiveTool.this } }
    else s
  { s with enabled := true }

/-- Embedding of `selecting_mouse_move(event)`: record the end point,
request a redraw, mark the event handled. -/
def selecting_mouse_move (s : SimpleZoom) (e : Event) : SimpleZoom × Event :=
  let s := { s with screen_end := some (e.x, e.y) }
  (s.request_redraw, { e with handled := true })

/-- Embedding of `_start_select(event)`: claim the `active_tool` slot
when it is free or already ours, otherwise clear the enabled flag; in
either case record the start point, clear the end point, enter the
selecting state, and run `selecting_mouse_move` (the pointer and
mouse-owner window calls are outside the model).  Note the source has no
early return in the contention branch: the gesture starts regardless. -/
def start_select (s : SimpleZoom) (e : Event) : SimpleZoom × Event :=
  let s :=
    if s.component.active_tool = ActiveTool.free ∨
       s.component.active_tool = ActiveTool.this then
      { s with component := { s.component with active_tool := ActiveTool.this } }
    else
      { s with enabled := false }
  let s := { s with screen_start := some (e.x, e.y),
                    screen_end := none,
                    event_state := EventState.selecting }
  s.selecting_mouse_move e

/-- Embedding of `normal_left_down(event)`: when the tool is always on
or enabled and the configured drag button is the left one, start
selecting. -/
def normal_left_down (s : SimpleZoom) (e : Event) : SimpleZoom × Event :=
  if (s.always_on || s.enabled) && s.drag_button = Button.left then
    s.start_select e
  else (s, e)

/-- Embedding of `normal_right_down(event)`: when the tool is always on
or enabled and the configured drag button is the right one, start
selecting. -/
def normal_right_down (s : SimpleZoom) (e : Event) : SimpleZoom × Event :=
  if (s.always_on || s.enabled) && s.drag_button = Button.right then
    s.start_select e
  else (s, e)

/-- Embedding of `_end_selecting(event)`: disable or reset according to
`disable_on_complete`, then request a redraw (the mouse-owner release on
the window is outside the model). -/
def end_selecting (s : SimpleZoom) : SimpleZoom :=
  let s := if s.disable_on_complete then s.disable else s.reset
  s.request_redraw

/-- Embedding of `_do_zoom()`, instrumented with the list of
`_zoom_limit_reached` results it computes, in order.  At index 0 the
original `low_setting` / `high_setting` values are written back (no
limit check); at a later index the limit policy is consulted per axis
and a `True` result pops the just-applied entry and stops before any
bounds are touched.  `none` models the Python exceptions on a malformed
state: an empty or too-short history (`IndexError`) or a tuple-shape
mismatch between the entries / original settings and the mode
(`TypeError` on unpacking). -/
def do_zoom (s : SimpleZoom) : Option (SimpleZoom × List Bool) :=
  match s.current_state, s.history.get? 0 with
  | some (low, high), some (orig_low, orig_high) =>
    if s.history_index = 0 then
      match s.tool_mode with
      | ToolMode.range =>
          match s.orig_low_setting, s.orig_high_setting with
          | Sum.inl ls, Sum.inl hs =>
              let s := s.setRange s.determine_axis
                (fun r => { r with low_setting := ls, high_setting := hs })
              some (s.request_redraw, [])
          | _, _ => none
      | ToolMode.box =>
          match s.orig_low_setting, s.orig_high_setting with
          | Sum.inr (lxs, lys), Sum.inr (hxs, hys) =>
              let s := s.setRange 0
                (fun r => { r with low_setting := lxs, high_setting := hxs })
              let s := s.setRange 1
                (fun r => { r with low_setting := lys, high_setting := hys })
              some (s.request_redraw, [])
          | _, _ => none
    else
      match s.tool_mode with
      | ToolMode.range =>
          match low, high, orig_low, orig_high with
          | ZVal.s l, ZVal.s h, ZVal.s ol, ZVal.s oh =>
              let c := zoom_limit_reached s.limits
                (EF.fin ol) (EF.fin oh) (EF.fin l) (EF.fin h)
              if c then some (s.pop_state, [c])
              else
                let s := s.setRange s.determine_axis
                  (fun r => { r with low := l, high := h })
                some (s.request_redraw, [c])
          | _, _, _, _ => none
      | ToolMode.box =>
          match low, high, orig_low, orig_high with
          | ZVal.p lx ly, ZVal.p hx hy, ZVal.p olx oly, ZVal.p ohx ohy =>
              let c0 := zoom_limit_reached s.limits
                (EF.fin olx) (EF.fin ohx) (EF.fin lx) (EF.fin hx)
              if c0 then some (s.pop_state, [c0])
              else
                let c1 := zoom_limit_reached s.limits
                  (EF.fin oly) (EF.fin ohy) (EF.fin ly) (EF.fin hy)
                if c1 then some (s.pop_state, [c0, c1])
                else
                  let s := s.setRange 0 (fun r => { r with low := lx, high := hx })
                  let s := s.setRange 1 (fun r => { r with low := ly, high := hy })
                  some (s.request_redraw, [c0, c1])
          | _, _, _, _ => none
  | _, _ => none

/-- Embedding of `_end_select(event)`: record the end point; when the
Manhattan screen delta is below `minimum_screen_delta`, end the
selection without zooming and mark the event handled; otherwise build
the candidate entry (scalar via the axis mapper in range mode, swapped
so low ≤ high; per-axis pairs via `_map_coordinate_box` in box mode),
push it, apply with `_do_zoom`, end the selection, and mark the event
handled.  `none` models the Python exceptions on a malformed state
(no recorded start point, or the failure cases of `_do_zoom`). -/
def end_select (s : SimpleZoom) (e : Event) : Option (SimpleZoom × Event) :=
  let s := { s with screen_end := some (e.x, e.y) }
  match s.screen_start with
  | none => none
  | some start =>
    if qabs (e.x - start.1) + qabs (e.y - start.2) < (s.minimum_screen_delta : ℚ) then
      some (s.end_selecting, { e with handled := true })
    else
      let entry : ZoomEntry :=
        match s.tool_mode with
        | ToolMode.range =>
            let m := s.get_mapper
            let ax := s.determine_axis
            let low := m.map_data (proj start ax)
            let high := m.map_data (proj (e.x, e.y) ax)
            if high < low then (ZVal.s high, ZVal.s low)
            else (ZVal.s low, ZVal.s high)
        | ToolMode.box =>
            let lh := s.map_coordinate_box start (e.x, e.y)
            (ZVal.p lh.1.1 lh.1.2, ZVal.p lh.2.1 lh.2.2)
      match (s.append_state entry).do_zoom with
      | none => none
      | some (s2, _) => some (s2.end_selecting, { e with handled := true })

end SimpleZoom

namespace SimpleZoom

/-- Per-axis original bounds in `normal_mouse_wheel`: the source branches
on `type(orig_high) in (tuple, list)` and indexes `orig_low[ndx]` /
`orig_high[ndx]` in that case, else uses the scalars directly.  The
mixed shapes raise a `TypeError` (either at the indexing or later inside
`_zoom_limit_reached` on `float - tuple`), modelled as `none`. -/
def origForAxis : ZVal → ZVal → ℕ → Option (ℚ × ℚ)
  | ZVal.p la lb, ZVal.p ha hb, ndx =>
      some (if ndx = 0 then (la, ha) else (lb, hb))
  | ZVal.s ol, ZVal.s oh, _ => some (ol, oh)
  | _, _, _ => none

/-- Per-axis loop body of `normal_mouse_wheel`: for each axis index in
turn, compute the candidate bounds around the cursor, consult the limit
policy against the index-0 original bounds, and either abort (returning
the state mutated so far and `true`) or set that axis's bounds and
continue.  Matches the source's early `return` on a limited axis, which
leaves previously processed axes already mutated. -/
def wheel_axes (zoom : ℚ) (low_pt high_pt mouse_pos : ℚ × ℚ)
    (orig_low orig_high : ZVal) :
    SimpleZoom → List ℕ → Option (SimpleZoom × Bool)
  | s, [] => some (s, false)
  | s, ndx :: rest =>
      let mouse_val := proj mouse_pos ndx
      let newlow := mouse_val - zoom * (mouse_val - proj low_pt ndx)
      let newhigh := mouse_val + zoom * (proj high_pt ndx - mouse_val)
      match origForAxis orig_low orig_high ndx with
      | none => none
      | some olh =>
          if zoom_limit_reached s.limits (EF.fin olh.1) (EF.fin olh.2)
              (EF.fin newlow) (EF.fin newhigh) then
            some (s, true)
          else
            wheel_axes zoom low_pt high_pt mouse_pos orig_low orig_high
              (s.setRange ndx (fun r => { r with low := newlow, high := newhigh }))
              rest

/-- Embedding of `normal_mouse_wheel(event)`: when the wheel is enabled
and the delta nonzero, compute the zoom factor (`1 / (1 + 0.5 * step)`
zooming in on a positive delta, `1 + 0.5 * step` zooming out), the
current visible box from the component's screen corners, and the cursor
position in data space; then run the per-axis loop (the determined axis
in range mode, x then y in box mode) against the index-0 history entry.
The event is marked handled both on completion and on a limited abort; a
redraw is requested only on completion.  `none` models the Python
exceptions on a malformed state (empty history, mismatched entry
shapes). -/
def normal_mouse_wheel (s : SimpleZoom) (e : Event) : Option (SimpleZoom × Event) :=
  if s.enable_wheel && e.mouse_wheel ≠ 0 then
    let zoom : ℚ :=
      if 0 < e.mouse_wheel then 1 / (1 + 1 / 2 * s.wheel_zoom_step)
      else 1 + 1 / 2 * s.wheel_zoom_step
    let c := s.component
    let lh := s.map_coordinate_box (c.x, c.y) (c.x2, c.y2)
    let mouse_pos := (c.x_mapper.map_data e.x, c.y_mapper.map_data e.y)
    let axes : List ℕ :=
      match s.tool_mode with
      | ToolMode.range => [s.determine_axis]
      | ToolMode.box => [0, 1]
    match s.history.get? 0 with
    | none => none
    | some olh =>
      match wheel_axes zoom lh.1 lh.2 mouse_pos olh.1 olh.2 s axes with
      | none => none
      | some sb =>
          if sb.2 then some (sb.1, { e with handled := true })
          else some (sb.1.request_redraw, { e with handled := true })
  else some (s, e)

/-- Embedding of the tail of `__init__` (after the component is
attached): reset the history to the current bounds, then capture the
mapper range's `low_setting` / `high_setting` raw values — the scalar
settings of the selected mapper in range mode, the `(x, y)` setting
pairs in box mode. -/
def init (s : SimpleZoom) : SimpleZoom :=
  let s := s.reset_state_to_current
  match s.tool_mode with
  | ToolMode.range =>
      let m := s.get_mapper
      { s with orig_low_setting := Sum.inl m.range.low_setting,
               orig_high_setting := Sum.inl m.range.high_setting }
  | ToolMode.box =>
      { s with
          orig_low_setting := Sum.inr
            (s.component.x_mapper.range.low_setting,
             s.component.y_mapper.range.low_setting),
          orig_high_setting := Sum.inr
            (s.component.x_mapper.range.high_setting,
             s.component.y_mapper.range.high_setting) }

end SimpleZoom

/-- Identity-mapped data range `(0, 100)` with symbolic settings, used by
the concrete evaluation states below. -/
def baseRange : DataRange :=
  { low := 0, high := 100, low_setting := Setting.auto,
    high_setting := Setting.auto }

/-- Axis mapper whose screen-to-data function is the identity, over
`baseRange`. -/
def baseMapper : Mapper := { map_data := fun q => q, range := baseRange }

/-- Concrete host component: screen box `(0, 0)`-`(100, 100)`, horizontal
orientation, identity mappers, free `active_tool` slot. -/
def baseComponent : Component :=
  { x := 0, y := 0, x2 := 100, y2 := 100, orientation := Orient.h,
    x_mapper := baseMapper, y_mapper := baseMapper,
    active_tool := ActiveTool.free, redraws := 0 }

/-- Concrete range-mode tool over `baseComponent` with the default trait
values of the source (`always_on` false, left drag button, wheel enabled,
step 1, `disable_on_complete` true, minimum delta 10, factors 1e5) and a
freshly reset history `[(0, 100)]` at index 0. -/
def baseTool : SimpleZoom :=
  { tool_mode := ToolMode.range, axis := AxisSel.index, always_on := false,
    drag_button := Button.left, enable_wheel := true, wheel_zoom_step := 1,
    disable_on_complete := true, minimum_screen_delta := 10,
    limits := defaultLimits, event_state := EventState.normal,
    enabled := false, orig_low_setting := Sum.inl Setting.auto,
    orig_high_setting := Sum.inl Setting.auto, screen_start := none,
    screen_end := none, component := baseComponent,
    history := [(ZVal.s 0, ZVal.s 100)], history_index := 0 }

/-- Concrete input event at screen `(50, 40)`, no wheel delta. -/
def baseEvent : Event := { x := 50, y := 40, mouse_wheel := 0, handled := false }

/-- State for the tool-contention scenario: the tool is armed and in the
normal state while another tool holds the `active_tool` slot. -/
def contendedTool : SimpleZoom :=
  { baseTool with
    enabled := true,
    component := { baseComponent with active_tool := ActiveTool.other } }

/-- State for the limited-apply scenario: a (0, 200000) entry was just
pushed over the original (0, 1), a 200000x zoom-out beyond the 1e5
factor. -/
def limitedTool : SimpleZoom :=
  { baseTool with
    history := [(ZVal.s 0, ZVal.s 1), (ZVal.s 0, ZVal.s 200000)],
    history_index := 1 }

/-- State for the below-threshold drag scenario: selecting, with the drag
started at screen `(50, 40)`. -/
def selTool : SimpleZoom :=
  { baseTool with
    event_state := EventState.selecting,
    enabled := true,
    screen_start := some (50, 40),
    component := { baseComponent with active_tool := ActiveTool.this } }

/-- Button-up event at screen `(52, 41)`: Manhattan delta 3 from the
start point of `selTool`, below the minimum of 10. -/
def smallDragEvent : Event := { x := 52, y := 41, mouse_wheel := 0, handled := false }

/-- Wheel event at screen `(50, 50)` with a positive delta. -/
def wheelEvent : Event := { x := 50, y := 50, mouse_wheel := 1, handled := false }

/-- C3 counterexample: at `(0, 1e-9, 0, 1e-9)` the original extent is
finite and nonzero, both ratios equal 1 and exceed neither default
factor, yet `_zoom_limit_reached` returns `True` (the extent is within
the `allclose` tolerance of zero), so the claimed equivalence fails. -/
theorem C3_counterexample :
    ¬ (zoom_limit_reached defaultLimits (EF.fin 0) (EF.fin (1 / 1000000000))
         (EF.fin 0) (EF.fin (1 / 1000000000)) = true ↔
       ((1 / 1000000000 - 0 : ℚ) / (1 / 1000000000 - 0) > 100000 ∨
        (1 / 1000000000 - 0 : ℚ) / (1 / 1000000000 - 0) > 100000)) := by
  norm_num [zoom_limit_reached, EF.sub, EF.eqPinf, EF.allcloseZero, EF.div,
            EF.gtF, pyGtOptF, qabs, defaultLimits]

/-- C3 (amended): for finite bounds whose original and new extents are
both outside the `allclose` tolerance of zero, `_zoom_limit_reached`
returns `True` iff `newExtent / origExtent` exceeds
`max_zoom_out_factor` or `origExtent / newExtent` exceeds
`max_zoom_in_factor`. -/
theorem C3_amended (mi mo ol oh nl nh : ℚ)
    (h1 : EF.allcloseZero (EF.fin (oh - ol)) = false)
    (h2 : EF.allcloseZero (EF.fin (nh - nl)) = false) :
    (zoom_limit_reached
       { max_zoom_in_factor := some mi, max_zoom_out_factor := some mo }
       (EF.fin ol) (EF.fin oh) (EF.fin nl) (EF.fin nh) = true) ↔
    ((nh - nl) / (oh - ol) > mo ∨ (oh - ol) / (nh - nl) > mi) := by
  have ho : ¬ (oh - ol = 0) := by
    intro h
    rw [h] at h1
    norm_num [EF.allcloseZero, qabs] at h1
  have hn : ¬ (nh - nl = 0) := by
    intro h
    rw [h] at h2
    norm_num [EF.allcloseZero, qabs] at h2
  simp [zoom_limit_reached, EF.sub, EF.eqPinf, EF.div, EF.gtF, pyGtOptF,
        h1, h2, ho, hn, or_comm]

/-- C3 witness: the amended equivalence evaluated at
`(0, 100, 45, 55)` with both factors 2: zoom-in factor 10 exceeds 2. -/
theorem C3_witness :
    EF.allcloseZero (EF.fin (100 - 0)) = false ∧
    EF.allcloseZero (EF.fin (55 - 45)) = false ∧
    (zoom_limit_reached
       { max_zoom_in_factor := some 2, max_zoom_out_factor := some 2 }
       (EF.fin 0) (EF.fin 100) (EF.fin 45) (EF.fin 55) = true ↔
     ((55 - 45 : ℚ) / (100 - 0) > 2 ∨ (100 - 0 : ℚ) / (55 - 45) > 2)) :=
  ⟨by norm_num [EF.allcloseZero, qabs], by norm_num [EF.allcloseZero, qabs],
   C3_amended 2 2 0 100 45 55 (by norm_num [EF.allcloseZero, qabs])
     (by norm_num [EF.allcloseZero, qabs])⟩

/-- C4 counterexample: with original bounds `(0, +inf)` and new bounds
`(0, 0)`, the new extent is numerically ~0 yet `_zoom_limit_reached`
returns `False`, because the `orig_bounds == inf` branch fires first. -/
theorem C4_counterexample :
    zoom_limit_reached defaultLimits (EF.fin 0) EF.pinf (EF.fin 0) (EF.fin 0)
      = false ∧
    (EF.sub (EF.fin 0) (EF.fin 0)).allcloseZero = true := by
  constructor
  · norm_num [zoom_limit_reached, EF.sub, EF.eqPinf, EF.allcloseZero, EF.div,
            EF.gtF, pyGtOptF, qabs, defaultLimits]
  · norm_num [EF.sub, EF.allcloseZero, qabs]

/-- C4 (amended): whenever the original extent is not `+inf` and the
original or the new extent is numerically ~0 (within the `allclose`
tolerance), `_zoom_limit_reached` returns `True`. -/
theorem C4_amended (lims : ZoomLimits) (ol oh nl nh : EF)
    (h1 : (EF.sub oh ol).eqPinf = false)
    (h2 : (EF.sub oh ol).allcloseZero = true ∨
          (EF.sub nh nl).allcloseZero = true) :
    zoom_limit_reached lims ol oh nl nh = true := by
  rcases h2 with h2 | h2 <;> simp [zoom_limit_reached, h1, h2]

/-- C4 witness: degenerate original extent `(5, 5)` against new bounds
`(0, 1)` is limited. -/
theorem C4_witness :
    (EF.sub (EF.fin 5) (EF.fin 5)).eqPinf = false ∧
    zoom_limit_reached defaultLimits (EF.fin 5) (EF.fin 5) (EF.fin 0)
      (EF.fin 1) = true :=
  ⟨by simp [EF.sub, EF.eqPinf], C4_amended defaultLimits (EF.fin 5) (EF.fin 5)
    (EF.fin 0) (EF.fin 1) (by simp [EF.sub, EF.eqPinf])
    (Or.inl (by norm_num [EF.sub, EF.allcloseZero, qabs]))⟩

/-- C5 counterexample: with original bounds `(+inf, 0)` the original
extent is `-inf` (infinite) and the new extent `0` is finite, yet
`_zoom_limit_reached` returns `True`: the guard tests `orig_bounds ==
inf` and only catches `+inf`. -/
theorem C5_counterexample :
    EF.sub (EF.fin 0) EF.pinf = EF.ninf ∧
    zoom_limit_reached defaultLimits EF.pinf (EF.fin 0) (EF.fin 0) (EF.fin 0)
      = true := by
  constructor
  · simp [EF.sub]
  · norm_num [zoom_limit_reached, EF.sub, EF.eqPinf, EF.allcloseZero, EF.div,
            EF.gtF, pyGtOptF, qabs, defaultLimits]

/-- C5 (amended): whenever the original extent equals positive infinity,
`_zoom_limit_reached` returns `False` for any new extent; an original
extent of negative infinity does not disable limiting. -/
theorem C5_amended (lims : ZoomLimits) (ol oh nl nh : EF)
    (h : (EF.sub oh ol).eqPinf = true) :
    zoom_limit_reached lims ol oh nl nh = false := by
  simp [zoom_limit_reached, h]

/-- C5 witness: original bounds `(0, +inf)`, new bounds `(1, 2)`. -/
theorem C5_witness :
    (EF.sub EF.pinf (EF.fin 0)).eqPinf = true ∧
    zoom_limit_reached defaultLimits (EF.fin 0) EF.pinf (EF.fin 1) (EF.fin 2)
      = false :=
  ⟨by simp [EF.sub, EF.eqPinf], C5_amended defaultLimits (EF.fin 0) EF.pinf
    (EF.fin 1) (EF.fin 2) (by simp [EF.sub, EF.eqPinf])⟩

/-- C10: when `max_zoom_in_factor` or `max_zoom_out_factor` is `None`,
`_zoom_limit_reached` returns `True` for every finite original and new
extent outside the `allclose` tolerance of zero — under Python 2
comparison semantics a `None` limit rejects every such zoom instead of
allowing all zooms. -/
theorem C10_none_limit_rejects (lims : ZoomLimits) (ol oh nl nh : ℚ)
    (h : lims.max_zoom_in_factor = none ∨ lims.max_zoom_out_factor = none)
    (h1 : EF.allcloseZero (EF.fin (oh - ol)) = false)
    (h2 : EF.allcloseZero (EF.fin (nh - nl)) = false) :
    zoom_limit_reached lims (EF.fin ol) (EF.fin oh) (EF.fin nl) (EF.fin nh)
      = true := by
  rcases h with h | h <;>
    simp [zoom_limit_reached, EF.sub, EF.eqPinf, EF.div, EF.gtF, pyGtOptF,
          h, h1, h2]

/-- C10 witness: a 2x zoom-out on original bounds `(0, 1)` with
`max_zoom_in_factor = None` is rejected. -/
theorem C10_witness :
    zoom_limit_reached
      { max_zoom_in_factor := none, max_zoom_out_factor := some 100000 }
      (EF.fin 0) (EF.fin 1) (EF.fin 0) (EF.fin 2) = true :=
  C10_none_limit_rejects
    { max_zoom_in_factor := none, max_zoom_out_factor := some 100000 }
    0 1 0 2 (Or.inl rfl) (by norm_num [EF.allcloseZero, qabs])
    (by norm_num [EF.allcloseZero, qabs])

/-- C1 counterexample: with the tool armed, in the normal state, and the
`active_tool` slot held by another tool, a left-button-down still enters
the Selecting state — `_start_select` has no early return in its
contention branch, so the gesture is started even though the claim says
it must not be. -/
theorem C1_counterexample :
    contendedTool.enabled = true ∧
    contendedTool.component.active_tool = ActiveTool.other ∧
    contendedTool.event_state = EventState.normal ∧
    (contendedTool.normal_left_down baseEvent).1.event_state
      = EventState.selecting := by
  exact ⟨rfl, rfl, rfl, rfl⟩

/-- C1 (amended): for every primary-button-down event received in the
normal state while the tool is armed or always-on, if another tool holds
the host surface's `active_tool` slot, the tool disarms itself (its
enabled flag becomes false) but the gesture is nonetheless started: the
start point is recorded and the tool enters the Selecting state. -/
theorem C1_contention_disarms_but_selects (s : SimpleZoom) (e : Event)
    (_hst : s.event_state = EventState.normal)
    (harm : s.always_on = true ∨ s.enabled = true)
    (hbtn : s.drag_button = Button.left)
    (hact : s.component.active_tool = ActiveTool.other) :
    (s.normal_left_down e).1.enabled = false ∧
    (s.normal_left_down e).1.event_state = EventState.selecting ∧
    (s.normal_left_down e).1.screen_start = some (e.x, e.y) := by
  rcases harm with h | h <;>
    simp [SimpleZoom.normal_left_down, h, hbtn, SimpleZoom.start_select,
          hact, SimpleZoom.selecting_mouse_move, SimpleZoom.request_redraw]

/-- C1 witness: the amended statement evaluated on the contended state
and the concrete button-down event. -/
theorem C1_witness :
    (contendedTool.always_on = true ∨ contendedTool.enabled = true) ∧
    contendedTool.drag_button = Button.left ∧
    contendedTool.component.active_tool = ActiveTool.other ∧
    ((contendedTool.normal_left_down baseEvent).1.enabled = false ∧
     (contendedTool.normal_left_down baseEvent).1.event_state
       = EventState.selecting ∧
     (contendedTool.normal_left_down baseEvent).1.screen_start
       = some (baseEvent.x, baseEvent.y)) :=
  ⟨Or.inr rfl, rfl, rfl,
   C1_contention_disarms_but_selects contendedTool baseEvent rfl
     (Or.inr rfl) rfl rfl⟩

/-- C2: whenever `_do_zoom` runs at a history index greater than 0 and
the zoom-limit policy reports the candidate limited (in box mode: on
either axis), the just-pushed entry is popped (last entry removed, index
decremented) and the component — in particular both mappers' bounds — is
left completely unmodified (both-or-nothing in box mode). -/
theorem C2_limited_apply_pops_without_bounds_change (s : SimpleZoom)
    (hidx : s.history_index ≠ 0) :
    (∀ l h ol oh : ℚ, s.tool_mode = ToolMode.range →
       s.current_state = some (ZVal.s l, ZVal.s h) →
       s.history.get? 0 = some (ZVal.s ol, ZVal.s oh) →
       zoom_limit_reached s.limits (EF.fin ol) (EF.fin oh)
         (EF.fin l) (EF.fin h) = true →
       ∃ cs, s.do_zoom = some (s.pop_state, cs) ∧ true ∈ cs ∧
         s.pop_state.history = s.history.dropLast ∧
         s.pop_state.history_index = s.history_index - 1 ∧
         s.pop_state.component = s.component) ∧
    (∀ lx ly hx hy olx oly ohx ohy : ℚ, s.tool_mode = ToolMode.box →
       s.current_state = some (ZVal.p lx ly, ZVal.p hx hy) →
       s.history.get? 0 = some (ZVal.p olx oly, ZVal.p ohx ohy) →
       (zoom_limit_reached s.limits (EF.fin olx) (EF.fin ohx)
          (EF.fin lx) (EF.fin hx) = true ∨
        zoom_limit_reached s.limits (EF.fin oly) (EF.fin ohy)
          (EF.fin ly) (EF.fin hy) = true) →
       ∃ cs, s.do_zoom = some (s.pop_state, cs) ∧ true ∈ cs ∧
         s.pop_state.history = s.history.dropLast ∧
         s.pop_state.history_index = s.history_index - 1 ∧
         s.pop_state.component = s.component) := by
  constructor
  · intro l h ol oh hm hcur h0 hc
    refine ⟨[true], ?_, by simp, rfl, rfl, rfl⟩
    unfold SimpleZoom.do_zoom
    rw [hcur, h0]
    simp only [if_neg hidx, hm, hc]
    simp
  · intro lx ly hx hy olx oly ohx ohy hm hcur h0 hor
    by_cases hc0 : zoom_limit_reached s.limits (EF.fin olx) (EF.fin ohx)
        (EF.fin lx) (EF.fin hx) = true
    · refine ⟨[true], ?_, by simp, rfl, rfl, rfl⟩
      unfold SimpleZoom.do_zoom
      rw [hcur, h0]
      simp only [if_neg hidx, hm, hc0]
      simp
    · have hc1 : zoom_limit_reached s.limits (EF.fin oly) (EF.fin ohy)
          (EF.fin ly) (EF.fin hy) = true := by
        rcases hor with h1 | h1
        · exact absurd h1 hc0
        · exact h1
      refine ⟨[zoom_limit_reached s.limits (EF.fin olx) (EF.fin ohx)
        (EF.fin lx) (EF.fin hx), true], ?_, by simp, rfl, rfl, rfl⟩
      unfold SimpleZoom.do_zoom
      rw [hcur, h0]
      simp only [if_neg hidx, hm, hc0, hc1]
      simp [hc0]

/-- C2 witness: the range-mode part evaluated on `limitedTool`: the
pushed `(0, 200000)` over the original `(0, 1)` is a 200000x zoom-out,
beyond the 1e5 factor, so the entry is popped and the component is
untouched. -/
theorem C2_witness :
    ∃ cs, limitedTool.do_zoom = some (limitedTool.pop_state, cs) ∧
      true ∈ cs ∧
      limitedTool.pop_state.history = limitedTool.history.dropLast ∧
      limitedTool.pop_state.history_index = limitedTool.history_index - 1 ∧
      limitedTool.pop_state.component = limitedTool.component :=
  (C2_limited_apply_pops_without_bounds_change limitedTool
    (by simp [limitedTool, baseTool])).1 0 200000 0 1 rfl rfl rfl
    (by norm_num [limitedTool, baseTool, defaultLimits, zoom_limit_reached,
      EF.sub, EF.eqPinf, EF.allcloseZero, EF.div, EF.gtF, pyGtOptF, qabs])

/-- Helper: updating a mapper range or bumping the redraw counter does
not change the axis determination (the `axis` trait and the component
orientation are untouched). -/
theorem setRange_determine_axis (s : SimpleZoom) (ndx : ℕ)
    (f : DataRange → DataRange) :
    (s.setRange ndx f).determine_axis = s.determine_axis := by
  unfold SimpleZoom.setRange
  split <;> rfl

/-- Helper: `request_redraw` does not change the axis determination. -/
theorem request_redraw_determine_axis (s : SimpleZoom) :
    s.request_redraw.determine_axis = s.determine_axis := rfl

/-- C6: whenever `_do_zoom` runs with the history index equal to 0, it
performs no zoom-limit check (the instrumented check list is empty) and
restores the original setting values captured at construction — the
`low_setting` / `high_setting` of the selected mapper range in range
mode, of both the x and y ranges in box mode — while leaving every
numeric `low` / `high` bound untouched. -/
theorem C6_apply_at_index0_restores_settings (s : SimpleZoom)
    (e0 : ZoomEntry) (hidx : s.history_index = 0)
    (h0 : s.history.get? 0 = some e0) :
    (∀ ls hs : Setting, s.tool_mode = ToolMode.range →
       s.orig_low_setting = Sum.inl ls → s.orig_high_setting = Sum.inl hs →
       ∃ s', s.do_zoom = some (s', []) ∧
         s'.get_mapper.range.low_setting = ls ∧
         s'.get_mapper.range.high_setting = hs ∧
         s'.component.x_mapper.range.low = s.component.x_mapper.range.low ∧
         s'.component.x_mapper.range.high = s.component.x_mapper.range.high ∧
         s'.component.y_mapper.range.low = s.component.y_mapper.range.low ∧
         s'.component.y_mapper.range.high = s.component.y_mapper.range.high) ∧
    (∀ lp hp : Setting × Setting, s.tool_mode = ToolMode.box →
       s.orig_low_setting = Sum.inr lp → s.orig_high_setting = Sum.inr hp →
       ∃ s', s.do_zoom = some (s', []) ∧
         s'.component.x_mapper.range.low_setting = lp.1 ∧
         s'.component.y_mapper.range.low_setting = lp.2 ∧
         s'.component.x_mapper.range.high_setting = hp.1 ∧
         s'.component.y_mapper.range.high_setting = hp.2 ∧
         s'.component.x_mapper.range.low = s.component.x_mapper.range.low ∧
         s'.component.x_mapper.range.high = s.component.x_mapper.range.high ∧
         s'.component.y_mapper.range.low = s.component.y_mapper.range.low ∧
         s'.component.y_mapper.range.high = s.component.y_mapper.range.high) := by
  obtain ⟨e0l, e0h⟩ := e0
  have hcur : s.current_state = some (e0l, e0h) := by
    rw [SimpleZoom.current_state, hidx]
    exact h0
  constructor
  · intro ls hs hm hl hh
    refine ⟨(s.setRange s.determine_axis
        (fun r => { r with low_setting := ls, high_setting := hs })).request_redraw,
      ?_, ?_, ?_, ?_, ?_, ?_, ?_⟩
    · unfold SimpleZoom.do_zoom
      rw [hcur, h0]
      simp only [hidx, if_pos, hm, hl, hh]
    all_goals
      cases hA : s.axis <;> cases hO : s.component.orientation <;>
        simp [SimpleZoom.get_mapper, SimpleZoom.determine_axis, hA, hO,
              SimpleZoom.setRange, SimpleZoom.request_redraw]
  · intro lp hp hm hl hh
    obtain ⟨lxs, lys⟩ := lp
    obtain ⟨hxs, hys⟩ := hp
    refine ⟨((s.setRange 0
        (fun r => { r with low_setting := lxs, high_setting := hxs })).setRange 1
        (fun r => { r with low_setting := lys, high_setting := hys })).request_redraw,
      ?_, ?_, ?_, ?_, ?_, ?_, ?_, ?_, ?_⟩
    · unfold SimpleZoom.do_zoom
      rw [hcur, h0]
      simp only [hidx, if_pos, hm, hl, hh]
    all_goals
      simp [SimpleZoom.setRange, SimpleZoom.request_redraw]

/-- C6 witness: `baseTool` sits at index 0 of a one-entry history in
range mode; applying restores the captured symbolic settings with no
limit check and no numeric bound change. -/
theorem C6_witness :
    ∃ s', baseTool.do_zoom = some (s', []) ∧
      s'.get_mapper.range.low_setting = Setting.auto ∧
      s'.get_mapper.range.high_setting = Setting.auto ∧
      s'.component.x_mapper.range.low = baseTool.component.x_mapper.range.low ∧
      s'.component.x_mapper.range.high = baseTool.component.x_mapper.range.high ∧
      s'.component.y_mapper.range.low = baseTool.component.y_mapper.range.low ∧
      s'.component.y_mapper.range.high = baseTool.component.y_mapper.range.high :=
  (C6_apply_at_index0_restores_settings baseTool (ZVal.s 0, ZVal.s 100)
    rfl rfl).1 Setting.auto Setting.auto rfl rfl rfl

/-- C7: a button-up ending a drag whose Manhattan screen delta is below
`minimum_screen_delta` creates no history entry and leaves both mapper
ranges unchanged; the gesture ends in the normal state with the event
marked handled. -/
theorem C7_below_threshold_drag_discards (s : SimpleZoom) (e : Event)
    (p : ℚ × ℚ) (hstart : s.screen_start = some p)
    (hdelta : qabs (e.x - p.1) + qabs (e.y - p.2)
      < (s.minimum_screen_delta : ℚ)) :
    ∃ s', s.end_select e = some (s', { e with handled := true }) ∧
      s'.history = s.history ∧
      s'.history_index = s.history_index ∧
      s'.component.x_mapper.range = s.component.x_mapper.range ∧
      s'.component.y_mapper.range = s.component.y_mapper.range ∧
      s'.event_state = EventState.normal := by
  refine ⟨({ s with screen_end := some (e.x, e.y) } : SimpleZoom).end_selecting,
    ?_, ?_, ?_, ?_, ?_, ?_⟩
  · unfold SimpleZoom.end_select
    simp only [hstart]
    rw [if_pos hdelta]
  all_goals
    by_cases hd : s.disable_on_complete = true <;>
      by_cases ha : s.component.active_tool = ActiveTool.this <;>
        simp [SimpleZoom.end_selecting, SimpleZoom.disable, SimpleZoom.reset,
              SimpleZoom.request_redraw, hd, ha]

/-- C7 witness: `selTool` with its drag started at `(50, 40)` and the
button-up at `(52, 41)`: Manhattan delta 3 is below the minimum of 10. -/
theorem C7_witness :
    ∃ s', selTool.end_select smallDragEvent
        = some (s', { smallDragEvent with handled := true }) ∧
      s'.history = selTool.history ∧
      s'.history_index = selTool.history_index ∧
      s'.component.x_mapper.range = selTool.component.x_mapper.range ∧
      s'.component.y_mapper.range = selTool.component.y_mapper.range ∧
      s'.event_state = EventState.normal :=
  C7_below_threshold_drag_discards selTool smallDragEvent (50, 40) rfl
    (by norm_num [selTool, baseTool, smallDragEvent, qabs])

/-- Helper: `setRange` only touches a mapper's data range, never the
history stack. -/
theorem setRange_history (s : SimpleZoom) (ndx : ℕ)
    (f : DataRange → DataRange) :
    (s.setRange ndx f).history = s.history ∧
    (s.setRange ndx f).history_index = s.history_index := by
  unfold SimpleZoom.setRange
  split <;> exact ⟨rfl, rfl⟩

/-- Helper: the per-axis wheel loop never touches the history stack,
whether it completes or aborts on a limited axis. -/
theorem wheel_axes_preserves_stack (zoom : ℚ) (lp hp mp : ℚ × ℚ)
    (ol oh : ZVal) :
    ∀ (axes : List ℕ) (s s2 : SimpleZoom) (b : Bool),
      SimpleZoom.wheel_axes zoom lp hp mp ol oh s axes = some (s2, b) →
      s2.history = s.history ∧ s2.history_index = s.history_index := by
  intro axes
  induction axes with
  | nil =>
    intro s s2 b h
    unfold SimpleZoom.wheel_axes at h
    rw [Option.some.injEq, Prod.mk.injEq] at h
    obtain ⟨rfl, -⟩ := h
    exact ⟨rfl, rfl⟩
  | cons ndx rest ih =>
    intro s s2 b h
    unfold SimpleZoom.wheel_axes at h
    simp only [] at h
    split at h
    · exact Option.noConfusion h
    · split at h
      · rw [Option.some.injEq, Prod.mk.injEq] at h
        obtain ⟨rfl, -⟩ := h
        exact ⟨rfl, rfl⟩
      · have hrec := ih _ _ _ h
        have hsr := setRange_history s ndx
          (fun r => { r with
            low := SimpleZoom.proj mp ndx
              - zoom * (SimpleZoom.proj mp ndx - SimpleZoom.proj lp ndx),
            high := SimpleZoom.proj mp ndx
              + zoom * (SimpleZoom.proj hp ndx - SimpleZoom.proj mp ndx) })
        exact ⟨hrec.1.trans hsr.1, hrec.2.trans hsr.2⟩

/-- C9: no mouse-wheel event ever creates, removes, or modifies a
history entry or moves the history index — whatever `normal_mouse_wheel`
does (applies the zoom, aborts on the limit policy, or ignores the
event), the resulting state carries exactly the original history
sequence and index. -/
theorem C9_wheel_never_touches_history (s : SimpleZoom) (e : Event)
    (s' : SimpleZoom) (e' : Event)
    (h : s.normal_mouse_wheel e = some (s', e')) :
    s'.history = s.history ∧ s'.history_index = s.history_index := by
  unfold SimpleZoom.normal_mouse_wheel at h
  split at h
  · simp only [] at h
    split at h
    · exact Option.noConfusion h
    · split at h
      · exact Option.noConfusion h
      · rename_i sb heq
        split at h
        · rw [Option.some.injEq, Prod.mk.injEq] at h
          obtain ⟨rfl, -⟩ := h
          exact wheel_axes_preserves_stack _ _ _ _ _ _ _ _ _ _ heq
        · rw [Option.some.injEq, Prod.mk.injEq] at h
          obtain ⟨rfl, -⟩ := h
          have hws := wheel_axes_preserves_stack _ _ _ _ _ _ _ _ _ _ heq
          exact ⟨hws.1, hws.2⟩
  · rw [Option.some.injEq, Prod.mk.injEq] at h
    obtain ⟨rfl, -⟩ := h
    exact ⟨rfl, rfl⟩

/-- C9 witness: a wheel event with zero delta is processed (returned
unchanged) and the history is exactly what it was. -/
theorem C9_witness :
    baseTool.normal_mouse_wheel baseEvent = some (baseTool, baseEvent) ∧
    baseTool.history = baseTool.history ∧
    baseTool.history_index = baseTool.history_index :=
  ⟨rfl, C9_wheel_never_touches_history baseTool baseEvent baseTool baseEvent
    rfl⟩

/-- Helper: `setRange` does not change the zoom-limit configuration. -/
theorem setRange_limits (s : SimpleZoom) (ndx : ℕ)
    (f : DataRange → DataRange) :
    (s.setRange ndx f).limits = s.limits := by
  unfold SimpleZoom.setRange
  split <;> rfl

/-- C8: for a wheel event with the wheel enabled and a nonzero delta,
the zoom factor is `1 / (1 + 0.5 * wheel_zoom_step)` for zoom-in
(positive delta) and `1 + 0.5 * wheel_zoom_step` for zoom-out (negative
delta), and for each relevant axis whose candidate passes the limit
policy the accepted bounds are `newLow = cursorVal - factor * (cursorVal
- curLow)` and `newHigh = cursorVal + factor * (curHigh - cursorVal)`,
with the event marked handled. -/
theorem C8_wheel_zoom_formula (s : SimpleZoom) (e : Event) (zoom : ℚ)
    (hw : s.enable_wheel = true) (hnz : e.mouse_wheel ≠ 0)
    (hzoom : zoom = if 0 < e.mouse_wheel
      then 1 / (1 + 1 / 2 * s.wheel_zoom_step)
      else 1 + 1 / 2 * s.wheel_zoom_step) :
    (∀ ol oh mv lo hi : ℚ, s.tool_mode = ToolMode.range →
       s.history.get? 0 = some (ZVal.s ol, ZVal.s oh) →
       mv = SimpleZoom.proj (s.component.x_mapper.map_data e.x,
              s.component.y_mapper.map_data e.y) s.determine_axis →
       lo = SimpleZoom.proj (s.map_coordinate_box
              (s.component.x, s.component.y)
              (s.component.x2, s.component.y2)).1 s.determine_axis →
       hi = SimpleZoom.proj (s.map_coordinate_box
              (s.component.x, s.component.y)
              (s.component.x2, s.component.y2)).2 s.determine_axis →
       ¬ zoom_limit_reached s.limits (EF.fin ol) (EF.fin oh)
           (EF.fin (mv - zoom * (mv - lo)))
           (EF.fin (mv + zoom * (hi - mv))) = true →
       (s.normal_mouse_wheel e).isSome = true ∧
       ∀ s' e', s.normal_mouse_wheel e = some (s', e') →
         e'.handled = true ∧
         s'.get_mapper.range.low = mv - zoom * (mv - lo) ∧
         s'.get_mapper.range.high = mv + zoom * (hi - mv)) ∧
    (∀ olx oly ohx ohy mvx mvy lox loy hix hiy : ℚ,
       s.tool_mode = ToolMode.box →
       s.history.get? 0 = some (ZVal.p olx oly, ZVal.p ohx ohy) →
       mvx = s.component.x_mapper.map_data e.x →
       mvy = s.component.y_mapper.map_data e.y →
       lox = (s.map_coordinate_box (s.component.x, s.component.y)
               (s.component.x2, s.component.y2)).1.1 →
       loy = (s.map_coordinate_box (s.component.x, s.component.y)
               (s.component.x2, s.component.y2)).1.2 →
       hix = (s.map_coordinate_box (s.component.x, s.component.y)
               (s.component.x2, s.component.y2)).2.1 →
       hiy = (s.map_coordinate_box (s.component.x, s.component.y)
               (s.component.x2, s.component.y2)).2.2 →
       ¬ zoom_limit_reached s.limits (EF.fin olx) (EF.fin ohx)
           (EF.fin (mvx - zoom * (mvx - lox)))
           (EF.fin (mvx + zoom * (hix - mvx))) = true →
       ¬ zoom_limit_reached s.limits (EF.fin oly) (EF.fin ohy)
           (EF.fin (mvy - zoom * (mvy - loy)))
           (EF.fin (mvy + zoom * (hiy - mvy))) = true →
       (s.normal_mouse_wheel e).isSome = true ∧
       ∀ s' e', s.normal_mouse_wheel e = some (s', e') →
         e'.handled = true ∧
         s'.component.x_mapper.range.low = mvx - zoom * (mvx - lox) ∧
         s'.component.x_mapper.range.high = mvx + zoom * (hix - mvx) ∧
         s'.component.y_mapper.range.low = mvy - zoom * (mvy - loy) ∧
         s'.component.y_mapper.range.high = mvy + zoom * (hiy - mvy)) := by
  have hc : (s.enable_wheel && decide (e.mouse_wheel ≠ 0)) = true := by
    simp [hw, hnz]
  constructor
  · intro ol oh mv lo hi hm h0 hmv hlo hhi hnl
    have heq : s.normal_mouse_wheel e =
        some ((s.setRange s.determine_axis (fun r =>
          { r with low := mv - zoom * (mv - lo),
                   high := mv + zoom * (hi - mv) })).request_redraw,
          { e with handled := true }) := by
      unfold SimpleZoom.normal_mouse_wheel
      rw [if_pos hc]
      simp only []
      rw [← hzoom, h0, hm]
      unfold SimpleZoom.wheel_axes
      simp only [SimpleZoom.origForAxis]
      rw [← hmv, ← hlo, ← hhi]
      rw [if_neg hnl]
      unfold SimpleZoom.wheel_axes
      rfl
    refine ⟨by rw [heq]; rfl, ?_⟩
    intro s' e' h
    rw [heq, Option.some.injEq, Prod.mk.injEq] at h
    obtain ⟨rfl, rfl⟩ := h
    refine ⟨rfl, ?_, ?_⟩ <;>
      cases hA : s.axis <;> cases hO : s.component.orientation <;>
        simp [SimpleZoom.get_mapper, SimpleZoom.determine_axis, hA, hO,
              SimpleZoom.setRange, SimpleZoom.request_redraw]
  · intro olx oly ohx ohy mvx mvy lox loy hix hiy hm h0 hmvx hmvy hlox
      hloy hhix hhiy hnlx hnly
    have heq : s.normal_mouse_wheel e =
        some (((s.setRange 0 (fun r =>
          { r with low := mvx - zoom * (mvx - lox),
                   high := mvx + zoom * (hix - mvx) })).setRange 1 (fun r =>
          { r with low := mvy - zoom * (mvy - loy),
                   high := mvy + zoom * (hiy - mvy) })).request_redraw,
          { e with handled := true }) := by
      unfold SimpleZoom.normal_mouse_wheel
      rw [if_pos hc]
      simp only []
      rw [← hzoom, h0, hm]
      unfold SimpleZoom.wheel_axes
      simp only [SimpleZoom.origForAxis, SimpleZoom.proj, reduceIte]
      rw [← hmvx, ← hmvy, ← hlox, ← hhix]
      rw [if_neg hnlx]
      unfold SimpleZoom.wheel_axes
      have h10 : ((1 : ℕ) = 0) = False := by simp
      simp only [SimpleZoom.origForAxis, SimpleZoom.proj, setRange_limits,
                 reduceIte, h10, if_false]
      rw [← hloy, ← hhiy]
      rw [if_neg hnly]
      unfold SimpleZoom.wheel_axes
      rfl
    refine ⟨by rw [heq]; rfl, ?_⟩
    intro s' e' h
    rw [heq, Option.some.injEq, Prod.mk.injEq] at h
    obtain ⟨rfl, rfl⟩ := h
    refine ⟨rfl, ?_, ?_, ?_, ?_⟩ <;>
      simp [SimpleZoom.setRange, SimpleZoom.request_redraw]

/-- C8 witness: the claim's scenario — zoom-in at cursor data value 50
on visible `(0, 100)` with `wheel_zoom_step = 1`, so the factor is
`1 / (1 + 0.5) = 2/3` and the accepted bounds are `50 - 2/3 * 50` and
`50 + 2/3 * 50`. -/
theorem C8_witness :
    (baseTool.normal_mouse_wheel wheelEvent).isSome = true ∧
    ∀ s' e', baseTool.normal_mouse_wheel wheelEvent = some (s', e') →
      e'.handled = true ∧
      s'.get_mapper.range.low = 50 - 2 / 3 * (50 - 0) ∧
      s'.get_mapper.range.high = 50 + 2 / 3 * (100 - 50) :=
  (C8_wheel_zoom_formula baseTool wheelEvent (2 / 3) rfl (by decide)
      (by norm_num [wheelEvent, baseTool])).1 0 100 50 0 100 rfl rfl
    (by norm_num [SimpleZoom.proj, SimpleZoom.determine_axis, baseTool,
          baseComponent, baseMapper, wheelEvent])
    (by norm_num [SimpleZoom.proj, SimpleZoom.determine_axis,
          SimpleZoom.map_coordinate_box, baseTool, baseComponent, baseMapper,
          wheelEvent])
    (by norm_num [SimpleZoom.proj, SimpleZoom.determine_axis,
          SimpleZoom.map_coordinate_box, baseTool, baseComponent, baseMapper,
          wheelEvent])
    (by norm_num [zoom_limit_reached, EF.sub, EF.eqPinf, EF.allcloseZero,
          EF.div, EF.gtF, pyGtOptF, qabs, defaultLimits, baseTool])
